import Mathlib

/-!
Verification of the stock-research pipeline in `app.py`.

Python strings are modelled as lists of characters (`Str`); parsed HTML
(BeautifulSoup) is modelled as a tree of nodes; the network and the two
external services (the Apify scraping actor and the Gemini generation call)
are modelled as explicit outcome parameters (`Except` values / call oracles).
-/

set_option autoImplicit false

deriving instance DecidableEq for Except

namespace StockApp

/-- Python strings are modelled as lists of characters. -/
abbrev Str := List Char

/-- Whitespace characters recognised by Python's `str.strip()`. -/
def pyIsSpace (c : Char) : Bool :=
  c == ' ' || c == '\t' || c == '\n' || c == '\r' || c == Char.ofNat 11 || c == Char.ofNat 12

/-- Python `s.strip()`: remove leading and trailing whitespace. -/
def pyStrip (s : Str) : Str :=
  ((s.dropWhile pyIsSpace).reverse.dropWhile pyIsSpace).reverse

/-- Fuel-driven scanner behind `pyReplace`; each step consumes at least one
character, so fuel `s.length` never runs out. -/
def pyReplaceFuel (old new : Str) : Nat → Str → Str
  | 0, s => s
  | fuel + 1, s =>
    match s with
    | [] => []
    | c :: rest =>
      if old ≠ [] ∧ old.isPrefixOf (c :: rest) then
        new ++ pyReplaceFuel old new fuel (rest.drop (old.length - 1))
      else
        c :: pyReplaceFuel old new fuel rest

/-- Python `s.replace(old, new)` for non-empty `old`: scan left to right,
replacing non-overlapping occurrences.  (For `old = []` this returns `s`
unchanged; the program only ever calls it with non-empty `old`.) -/
def pyReplace (s old new : Str) : Str := pyReplaceFuel old new s.length s

/-- Decimal rendering of a natural number, as Python `str(n)` / f-string
interpolation of an int. -/
def natStr (n : Nat) : Str := (toString n).toList

/-- First-match lookup in an association list (Python `dict.get` on the
underlying insertion-ordered pairs). -/
def lookupStr {α : Type} : List (Str × α) → Str → Option α
  | [], _ => none
  | (k', v) :: rest, k => if k' = k then some v else lookupStr rest k

/-! ### Parsed HTML (BeautifulSoup) model

A lenient HTML parse always yields a tree; malformed or empty markup yields a
tree (possibly with no element children), never an exception.  Elements carry
their tag name, the multi-valued `class` attribute, the remaining attributes
and their children. -/

inductive Node where
  | text (s : Str)
  | elem (tag : Str) (classes : List Str) (attrs : List (Str × Str)) (children : List Node)

/-- The parse of empty (or entirely unrecognisable) markup: a document node
with no children. -/
def emptySoup : Node := Node.elem ("[document]".toList) [] [] []

mutual

/-- All descendants of a node in document (pre-)order, the node itself
excluded — the search space of BeautifulSoup's `find` / `find_all`. -/
def descendants : Node → List Node
  | Node.text _ => []
  | Node.elem _ _ _ ch => descendantsList ch

def descendantsList : List Node → List Node
  | [] => []
  | n :: ns => n :: (descendants n ++ descendantsList ns)

end

/-- Tag name of a node (text nodes have none). -/
def nodeTag : Node → Str
  | Node.text _ => []
  | Node.elem t _ _ _ => t

/-- The `class` attribute values of a node. -/
def nodeClasses : Node → List Str
  | Node.text _ => []
  | Node.elem _ cs _ _ => cs

/-- Attribute lookup, as `tag['href']` / `tag.has_attr`. -/
def nodeAttr : Node → Str → Option Str
  | Node.text _, _ => none
  | Node.elem _ _ attrs _, k => lookupStr attrs k

/-- BeautifulSoup's `.string`: a text node is its own string; an element with
exactly one child defers to that child; anything else has no string. -/
def nodeString : Node → Option Str
  | Node.text s => some s
  | Node.elem _ _ _ [c] => nodeString c
  | Node.elem _ _ _ _ => none

/-- `find_all(pred)`: all matching descendants in document order. -/
def findAll (p : Node → Bool) (n : Node) : List Node := (descendants n).filter p

/-- `find(pred)`: the first matching descendant, if any. -/
def findFirst (p : Node → Bool) (n : Node) : Option Node := (findAll p n).head?

mutual

/-- All text fragments below a node, in document order (BeautifulSoup's
`.strings` of a tag; a text node contributes itself). -/
def textFragments : Node → List Str
  | Node.text s => [s]
  | Node.elem _ _ _ ch => textFragmentsList ch

def textFragmentsList : List Node → List Str
  | [] => []
  | n :: ns => textFragments n ++ textFragmentsList ns

end

/-- `get_text(sep, strip=True)`: strip every fragment, drop the ones that
become empty, join the rest with the separator. -/
def getTextSep (sep : Str) (n : Node) : Str :=
  List.intercalate sep (((textFragments n).map pyStrip).filter (fun s => !s.isEmpty))

/-- `get_text(strip=True)` (no separator). -/
def getTextStrip (n : Node) : Str := getTextSep [] n

/-! ### Transcript Link Extractor (`extract_transcript_links`) -/

/-- A concall entry: `<li class="flex-wrap-420">`. -/
def isConcallLi (n : Node) : Bool :=
  nodeTag n == "li".toList && (nodeClasses n).contains ("flex-wrap-420".toList)

/-- A transcript anchor: `<a class="concall-link">` whose string is exactly
`Transcript`. -/
def isTranscriptAnchor (n : Node) : Bool :=
  nodeTag n == "a".toList && (nodeClasses n).contains ("concall-link".toList) &&
    nodeString n == some ("Transcript".toList)

/-- The site origin used to absolutize relative hrefs. -/
def screenerBase : Str := "https://www.screener.in".toList

/-- `link if link.startswith('http') else f"https://www.screener.in{link}"`. -/
def absolutizeLink (link : Str) : Str :=
  if ("http".toList).isPrefixOf link then link else screenerBase ++ link

/-- The body of the link loop for one concall list item: find the first
transcript anchor; if present and carrying an `href`, absolutize it. -/
def transcriptLinkOf (li : Node) : Option Str :=
  match findFirst isTranscriptAnchor li with
  | some a => (nodeAttr a ("href".toList)).map absolutizeLink
  | none => none

/-- `extract_transcript_links`: collect, over all concall list items, the
absolutized hrefs of their transcript anchors. -/
def extract_transcript_links (soup : Node) : List Str :=
  (findAll isConcallLi soup).filterMap transcriptLinkOf

/-! ### HTML Ratio Extractor (`get_company_ratios`) -/

/-- The ratios container: `<ul id="top-ratios">`. -/
def isTopRatiosUl (n : Node) : Bool :=
  nodeTag n == "ul".toList && nodeAttr n ("id".toList) == some ("top-ratios".toList)

/-- A ratio entry: `<li class="flex">`. -/
def isFlexLi (n : Node) : Bool :=
  nodeTag n == "li".toList && (nodeClasses n).contains ("flex".toList)

/-- The ratio-name element: `<span class="name">`. -/
def isNameSpan (n : Node) : Bool :=
  nodeTag n == "span".toList && (nodeClasses n).contains ("name".toList)

/-- The ratio-value element: `<span class="value">`. -/
def isValueSpan (n : Node) : Bool :=
  nodeTag n == "span".toList && (nodeClasses n).contains ("value".toList)

/-- Python `d[k] = v` on an insertion-ordered dict: overwrite in place if the
key exists, else append. -/
def dictSet (d : List (Str × Str)) (k v : Str) : List (Str × Str) :=
  if d.any (fun p => p.1 == k) then
    d.map (fun p => if p.1 = k then (p.1, v) else p)
  else d ++ [(k, v)]

/-- `value_tag.get_text(" ", strip=True).replace('\n', '').replace('  ', ' ')`. -/
def normalizeValue (valueTag : Node) : Str :=
  pyReplace (pyReplace (getTextSep (" ".toList) valueTag) ("\n".toList) []) ("  ".toList)
    (" ".toList)

/-- One iteration of the ratio loop: record the entry when both the name span
and the value span are present. -/
def ratiosStep (d : List (Str × Str)) (li : Node) : List (Str × Str) :=
  match findFirst isNameSpan li, findFirst isValueSpan li with
  | some nameTag, some valueTag => dictSet d (getTextStrip nameTag) (normalizeValue valueTag)
  | _, _ => d

/-- The parse part of `get_company_ratios`: locate `ul#top-ratios` (absent ⇒
empty dict) and fold over its `li.flex` entries. -/
def ratiosFrom (soup : Node) : List (Str × Str) :=
  match findFirst isTopRatiosUl soup with
  | none => []
  | some container => (findAll isFlexLi container).foldl ratiosStep []

/-- `get_company_ratios`, with the network outcome made explicit: an exception
during the fetch, or an HTTP status plus the parsed page.  A non-200 status or
any exception yields the empty dict. -/
def get_company_ratios (fetch : Except Str (Nat × Node)) : List (Str × Str) :=
  match fetch with
  | Except.error _ => []
  | Except.ok (status, soup) => if status ≠ 200 then [] else ratiosFrom soup

/-! ### Remote Ratio Fetcher and `get_financial_data` -/

/-- JSON-like values held by the actor's dataset items. -/
inductive JVal where
  | str (s : Str)
  | num (n : Int)
  | obj (fields : List (Str × JVal))

/-- A dataset item is a JSON object (its ordered fields). -/
abbrev JItem := List (Str × JVal)

/-- Python `item.get(k, dflt)`. -/
def itemGet (item : JItem) (k : Str) (dflt : JVal) : JVal :=
  (lookupStr item k).getD dflt

def ratiosKey : Str := "ratios".toList

/-- The dataset loop of `get_financial_data`: `ratios = {}` then, for the
first item only (the loop breaks), `ratios = item.get("ratios", item)`. -/
def ratiosLoop (acc : JVal) : List JItem → JVal
  | [] => acc
  | item :: _ => itemGet item ratiosKey (JVal.obj item)

/-- The RatioSet taken from the actor run's default dataset. -/
def datasetRatios (ds : List JItem) : JVal := ratiosLoop (JVal.obj []) ds

/-- `get_financial_data`, with both external calls made explicit: the actor
run (yielding the dataset items) and the profile-page fetch.  Any exception in
either is caught by the surrounding `try` and yields `(None, None)`; a non-200
page status leaves the links empty. -/
def get_financial_data (actorRun : Except Str (List JItem))
    (page : Except Str (Nat × Node)) : Option JVal × Option (List Str) :=
  match actorRun with
  | Except.error _ => (none, none)
  | Except.ok ds =>
    match page with
    | Except.error _ => (none, none)
    | Except.ok (status, soup) =>
      (some (datasetRatios ds), some (if status = 200 then extract_transcript_links soup else []))

/-! ### Document Text Extractor (`read_transcript`) -/

/-- The page marker `f"\n--- PAGE {i+1} ---\n"` (here `i` is already 1-based). -/
def pageSep (i : Nat) : Str := "\n--- PAGE ".toList ++ natStr i ++ " ---\n".toList

/-- The extraction loop: `for i in range(min(10, num_pages))`, appending the
marker and the page text whenever the page's extracted text is non-empty.
`i` is the 1-based page number of the head of the remaining list. -/
def pagesLoop : Nat → List Str → Str
  | _, [] => []
  | i, p :: rest => (if p ≠ [] then pageSep i ++ p else []) ++ pagesLoop (i + 1) rest

/-- Text accumulated from at most the first 10 pages of the document (a
document is modelled by the list of its pages' extracted texts). -/
def pagesText (pages : List Str) : Str := pagesLoop 1 (pages.take 10)

def scannedSentinel : Str := "[Scanned PDF/No Text]".toList

/-- `return text if text.strip() else "[Scanned PDF/No Text]"`. -/
def read_transcript_pages (pages : List Str) : Str :=
  if pyStrip (pagesText pages) ≠ [] then pagesText pages else scannedSentinel

def couldNotRead : Str := "Could not read PDF: ".toList

/-- `read_transcript`, with the download-and-parse outcome explicit: either an
exception (whose message Python renders via `str(e)`) or the document's pages.
Every exception is caught and turned into a descriptive string. -/
def read_transcript (doc : Except Str (List Str)) : Str :=
  match doc with
  | Except.error e => couldNotRead ++ e
  | Except.ok pages => read_transcript_pages pages

/-! ### Orchestrator: transcript concatenation and the audit prompt -/

/-- `f"\n--- TRANSCRIPT {i+1} SOURCE ---\n"` (here `i` is already 1-based). -/
def transcriptSep (i : Nat) : Str :=
  "\n--- TRANSCRIPT ".toList ++ natStr i ++ " SOURCE ---\n".toList

/-- The transcript loop: for each considered link (1-based index `i`), append
the labelled separator and the extracted text of that link's document
(`docOf` abstracts `read_transcript` composed with the per-URL outcome). -/
def transcriptsLoop (docOf : Str → Str) : Nat → List Str → Str
  | _, [] => []
  | i, link :: rest => transcriptSep i ++ docOf link ++ transcriptsLoop docOf (i + 1) rest

/-- `all_transcripts_text`: empty when no links were found, else the loop over
`links[:3]`. -/
def allTranscriptsText (docOf : Str → Str) (links : List Str) : Str :=
  if links = [] then [] else transcriptsLoop docOf 1 (links.take 3)

/-- Python truthiness of the values `ratios` can hold. -/
def jvalTruthy : JVal → Bool
  | JVal.str s => !s.isEmpty
  | JVal.num n => n != 0
  | JVal.obj fs => !fs.isEmpty

/-- Truthiness of the first component of `get_financial_data`'s result
(`None` and empty values are falsy). -/
def optTruthy : Option JVal → Bool
  | none => false
  | some v => jvalTruthy v

def quoteChar : Char := Char.ofNat 39

def lbraceChar : Char := Char.ofNat 123

def rbraceChar : Char := Char.ofNat 125

/-- Python `repr` of a string (as used by `str(dict)`), quoting ignored
escapes: the program's ratio names and values contain no quotes. -/
def pyQuote (s : Str) : Str := quoteChar :: s ++ [quoteChar]

/-- Python `str` of a dict of strings, e.g. `{'P/E': '23.5'}`. -/
def pyReprStrDict (d : List (Str × Str)) : Str :=
  lbraceChar ::
    List.intercalate (", ".toList)
      (d.map (fun kv => pyQuote kv.1 ++ ": ".toList ++ pyQuote kv.2)) ++ [rbraceChar]

mutual

/-- Python `str` of a JSON-like value (dicts render with quoted keys). -/
def pyReprJVal : JVal → Str
  | JVal.str s => pyQuote s
  | JVal.num n => (toString n).toList
  | JVal.obj fs => lbraceChar :: pyReprFields fs ++ [rbraceChar]

def pyReprFields : List (Str × JVal) → Str
  | [] => []
  | [(k, v)] => pyQuote k ++ ": ".toList ++ pyReprJVal v
  | (k, v) :: rest => pyQuote k ++ ": ".toList ++ pyReprJVal v ++ ", ".toList ++ pyReprFields rest

end

/-- The character budget applied to the transcript segment of the prompt. -/
def transcriptCap : Nat := 165000

def promptSeg0 : Str := "\n             \n            Company: ".toList

def promptSeg1 : Str :=
  "\n            \n            DATA:\n            - Fundamental Ratios and data: ".toList

def promptSeg2 : Str := "\n            - Ratios: ".toList

def promptSeg3 : Str := "\n            - Transcript Snippets: ".toList

def promptSeg4 : Str :=
  "\n            \n             \n\n             Assume the role of an experienced fund manager with over 20 years in the stock market. Analyze the company ".toList

def promptSeg5 : Str :=
  " and provide a detailed report covering the following aspects:\n\t1.\tCompany History and Management:\n\t•\tOutline the company’s background, including its inception, evolution, and key milestones.\n\t•\tEvaluate the credibility and experience of the management team, highlighting their track record in the industry.\n\t2.\tBusiness Model:\n\t•\tExplain how the company generates revenue, detailing its primary objectives. Even people with different fields can easily understand with examples of products or services and target markets.\n\t•\tDescribe the cost structure and key factors influencing profitability.\n\t•\tEnsure that the business model is straightforward enough that a 15-year-old could understand it, aligning with Warren Buffett’s principle that if a business is too complex to understand, it may not be a suitable investment.\n\t3.\tCompetitive Advantage (Moat):\n\t•\tIdentify the company’s unique selling propositions and factors that differentiate it from competitors. ￼\n\t•\tDiscuss any barriers to entry that protect the company’s market position.\n\t4.\tFuture Plans and Growth Prospects:\n\t•\tSummarize the company’s strategic initiatives, such as planned product launches, market expansions, or mergers and acquisitions.\n\t•\tAnalyze the industry’s growth rate and assess the company’s potential to outpace industry growth.\n\t5.\tFinancial Health:\n\t•\tReview key financial metrics, including revenue and profit trends over the past five years.\n\t•\tEvaluate the strength of the balance sheet by examining assets, liabilities, and equity.\n\t•\tAnalyze cash flow statements to determine the company’s ability to generate and utilize cash effectively.\n\t6.\tValuation:\n\t•\tCalculate and interpret valuation ratios such as the Price-to-Earnings (P/E) ratio, Price-to-Book (P/B) ratio, and any other relevant metrics.\n\t•\tCompare these ratios to industry averages to assess whether the company’s stock is overvalued, undervalued, or fairly priced.\n\t7.\tPros and Cons:\n\t•\tHighlight the strengths and opportunities that make the company a compelling investment.\n\t•\tDiscuss potential weaknesses and threats that could impact the company’s performance.\n\t8.\tFive-Year Financial Projections:\n\t•\tProvide forecasted financial statements, including projected revenues, expenses, and earnings per share (EPS) for the next five years.\n\t•\tOutline the assumptions underlying these projections and discuss potential risks to achieving them.\n    9.  Give the risks to invest in this share and points in breif detail why would it go down and why would it go up.\n    10. Give a fair price for this stock but indicate that not to invest based on this price, since the price could not be accurate.\nEnsure that the analysis is thorough, data-driven, and presented in a manner understandable to a layperson. Use examples where appropriate to illustrate key points. If certain information is unavailable, indicate this clearly in the report if data is not found in transcripts or given data, try to find in the google web but never hallucinate.\n\n".toList

/-- The audit prompt f-string: fixed template segments around the interpolated
ticker, the two ratio sets (rendered as Python renders them) and the
transcript text truncated to the first 165,000 characters. -/
def audit_prompt (ticker : Str) (mainRatios : List (Str × Str)) (ratios : JVal)
    (allT : Str) : Str :=
  promptSeg0 ++ ticker ++ promptSeg1 ++ pyReprStrDict mainRatios ++ promptSeg2 ++
    pyReprJVal ratios ++ promptSeg3 ++ allT.take transcriptCap ++ promptSeg4 ++ ticker ++
    promptSeg5

/-- Observable effects of one run of the button handler, after a non-empty
ticker was entered: whether `st.stop()` was reached, which transcript links
were downloaded and parsed, and the prompt passed to the generation call
(`none` when no generation call is made). -/
structure RunTrace where
  halted : Bool
  parsedLinks : List Str
  promptSent : Option Str

/-- The Start-Deep-Research handler: local ratio fetch, combined remote
fetch, the mandatory-ratio check (`if not ratios: st.stop()`), transcript
extraction over the first three links, and prompt assembly. -/
def runPipeline (localFetch : Except Str (Nat × Node)) (actorRun : Except Str (List JItem))
    (page : Except Str (Nat × Node)) (docOf : Str → Str) (ticker : Str) : RunTrace :=
  let mainRatios := get_company_ratios localFetch
  let fd := get_financial_data actorRun page
  if optTruthy fd.1 = false then
    { halted := true, parsedLinks := [], promptSent := none }
  else
    let links := fd.2.getD []
    let recent := if links = [] then [] else links.take 3
    let allT := allTranscriptsText docOf links
    { halted := false, parsedLinks := recent,
      promptSent := some (audit_prompt ticker mainRatios (fd.1.getD (JVal.obj [])) allT) }

/-! ### Report Synthesizer retry policy (`generate_analysis`)

The decorator `@retry(retry=retry_if_exception_type(Exception),
wait=wait_random_exponential(min=10, max=60), stop=stop_after_attempt(3))` is
third-party (tenacity) behaviour; it is modelled from tenacity's
implementation: `wait_exponential` computes the window
`max(min, min(multiplier * exp_base ** attempt_number, max))` (multiplier 1,
base 2 here) and `wait_random_exponential` sleeps a uniformly random fraction
of that window, i.e. `random.uniform(0, window)`; `stop_after_attempt(3)`
re-raises the last exception once 3 attempts have been made.  Waits are
rationals; the uniform draw is abstracted by a jitter `u ∈ [0, 1]` per
attempt. -/

/-- The exponential window of `wait_random_exponential(min=10, max=60)` after
the given (1-based) failed attempt. -/
def waitWindow (attempt : Nat) : ℚ := max 10 (min ((2 : ℚ) ^ attempt) 60)

/-- The actual sleep: a uniformly random fraction `u` of the window. -/
def waitRandExp (u : ℚ) (attempt : Nat) : ℚ := u * waitWindow attempt

/-- The retry driver: `call n` is the outcome of the `n`-th invocation of the
wrapped function, `rem` the number of further attempts `stop_after_attempt`
still allows.  Returns the final outcome and the list of sleeps performed. -/
def retryAux {α : Type} (call : Nat → Except Str α) (wait : Nat → ℚ) :
    Nat → Nat → Except Str α × List ℚ
  | attempt, 0 => (call attempt, [])
  | attempt, rem + 1 =>
    match call attempt with
    | Except.ok r => (Except.ok r, [])
    | Except.error _ =>
      let res := retryAux call wait (attempt + 1) rem
      (res.1, wait attempt :: res.2)

/-- `generate_analysis` under its retry decorator: first attempt is number 1,
`stop_after_attempt(3)` allows two further attempts, and the sleep after
failed attempt `a` is `u a * waitWindow a`. -/
def generate_analysis {α : Type} (call : Nat → Except Str α) (u : Nat → ℚ) :
    Except Str α × List ℚ :=
  retryAux call (fun a => waitRandExp (u a) a) 1 2

/-! ## Theorems -/

/-- Claim C9: the Remote Ratio Fetcher consults only the first dataset item:
the RatioSet is that item's `ratios` field, or the whole first item when that
field is absent, and the remaining items are ignored. -/
theorem c9_first_dataset_item_only (item : JItem) (rest rest' : List JItem) :
    datasetRatios (item :: rest) = itemGet item ratiosKey (JVal.obj item)
    ∧ datasetRatios (item :: rest) = datasetRatios (item :: rest')
    ∧ (∀ r, lookupStr item ratiosKey = some r → datasetRatios (item :: rest) = r)
    ∧ (lookupStr item ratiosKey = none → datasetRatios (item :: rest) = JVal.obj item) := by
  refine ⟨rfl, rfl, ?_, ?_⟩
  · intro r h
    simp [datasetRatios, ratiosLoop, itemGet, h]
  · intro h
    simp [datasetRatios, ratiosLoop, itemGet, h]

/-- Witness for C9: a two-item dataset whose first item has a `ratios` field;
the second item is ignored and the field is returned. -/
theorem c9_first_dataset_item_only_witness :
    datasetRatios
      [[(ratiosKey, JVal.str ("x".toList))], [("other".toList, JVal.num 1)]]
      = JVal.str ("x".toList) :=
  (c9_first_dataset_item_only [(ratiosKey, JVal.str ("x".toList))]
    [[("other".toList, JVal.num 1)]] []).2.2.1 _ (by rfl)

/-- Claim C5: the Document Text Extractor converts every download/parse
exception into a plain descriptive string instead of propagating it, and the
orchestrator embeds that string in the accumulated transcript text exactly
like ordinary transcript text. -/
theorem c5_extractor_absorbs_exceptions (e : Str) (fetchOf : Str → Except Str (List Str))
    (url : Str) :
    read_transcript (Except.error e) = couldNotRead ++ e
    ∧ allTranscriptsText (fun v => read_transcript (fetchOf v)) [url]
        = transcriptSep 1 ++ read_transcript (fetchOf url) := by
  constructor
  · rfl
  · simp [allTranscriptsText, transcriptsLoop]

/-- Claim C1 (amended none needed): when the remote fetch yields no ratios
(`None` or an empty/falsy RatioSet), the handler stops before transcript
extraction and synthesis: no link is downloaded or parsed and no generation
call is made. -/
theorem c1_no_remote_ratios_halts (localFetch : Except Str (Nat × Node))
    (actorRun : Except Str (List JItem)) (page : Except Str (Nat × Node))
    (docOf : Str → Str) (ticker : Str)
    (h : optTruthy (get_financial_data actorRun page).1 = false) :
    runPipeline localFetch actorRun page docOf ticker
      = { halted := true, parsedLinks := [], promptSent := none } := by
  unfold runPipeline
  simp [h]

/-- Witness for C1: an actor run whose dataset is empty yields an empty
RatioSet, and the pipeline halts with no parsed links and no prompt. -/
theorem c1_no_remote_ratios_halts_witness :
    runPipeline (Except.error ("x".toList)) (Except.ok []) (Except.ok (200, emptySoup))
      (fun _ => []) ("INFY".toList)
      = { halted := true, parsedLinks := [], promptSent := none } :=
  c1_no_remote_ratios_halts (Except.error ("x".toList)) (Except.ok [])
    (Except.ok (200, emptySoup)) (fun _ => []) ("INFY".toList) (by decide)

/-- Claim C10: any exception inside `get_financial_data` — including a
link-page fetch failure after the remote ratios were already obtained —
yields `(None, None)`, discarding the ratios, and the handler then halts as a
mandatory-data failure. -/
theorem c10_link_fetch_failure_discards_ratios (ds : List JItem) (e eA : Str)
    (page localFetch : Except Str (Nat × Node)) (docOf : Str → Str) (ticker : Str) :
    get_financial_data (Except.ok ds) (Except.error e) = (none, none)
    ∧ get_financial_data (Except.error eA) page = (none, none)
    ∧ (jvalTruthy (datasetRatios ds) = true →
        runPipeline localFetch (Except.ok ds) (Except.error e) docOf ticker
          = { halted := true, parsedLinks := [], promptSent := none }) := by
  refine ⟨rfl, rfl, ?_⟩
  intro _
  unfold runPipeline
  simp [get_financial_data, optTruthy]

/-- Witness for C10: a dataset carrying a non-empty RatioSet is discarded when
the link-page fetch raises, and the pipeline halts. -/
theorem c10_link_fetch_failure_discards_ratios_witness :
    runPipeline (Except.error ("x".toList))
      (Except.ok [[(ratiosKey, JVal.obj [("Stock P/E".toList, JVal.str ("23".toList))])]])
      (Except.error ("timeout".toList)) (fun _ => []) ("TCS".toList)
      = { halted := true, parsedLinks := [], promptSent := none } :=
  (c10_link_fetch_failure_discards_ratios
    [[(ratiosKey, JVal.obj [("Stock P/E".toList, JVal.str ("23".toList))])]]
    ("timeout".toList) ("y".toList) (Except.ok (200, emptySoup)) (Except.error ("x".toList))
    (fun _ => []) ("TCS".toList)).2.2 (by decide)

/-- Decomposition of the transcript loop: the entry at (0-based) position `i`
of the processed links contributes its labelled separator followed by its
document text, at a definite position in the accumulated string. -/
theorem transcriptsLoop_decomp (docOf : Str → Str) :
    ∀ (links : List Str) (j i : Nat) (link : Str), links[i]? = some link →
      ∃ pre post, transcriptsLoop docOf j links
        = pre ++ transcriptSep (j + i) ++ docOf link ++ post := by
  intro links
  induction links with
  | nil =>
    intro j i link h
    simp at h
  | cons hd tl ih =>
    intro j i link h
    cases i with
    | zero =>
      simp at h
      subst h
      exact ⟨[], transcriptsLoop docOf (j + 1) tl, by simp [transcriptsLoop]⟩
    | succ i' =>
      simp at h
      obtain ⟨pre, post, hp⟩ := ih (j + 1) i' link h
      refine ⟨transcriptSep j ++ docOf hd ++ pre, post, ?_⟩
      have hji : j + 1 + i' = j + (i' + 1) := by omega
      rw [hji] at hp
      simp [transcriptsLoop, hp]

/-- Claim C3: the transcript segment embedded in the prompt is the first-165000
character truncation of the concatenation over at most the first 3 links; it
never exceeds 165,000 characters, the truncation is a prefix of the full
concatenation (no text is dropped before the cap), every one of the first 3
documents appears in full (with its labelled separator) in the concatenation,
and the prompt embeds exactly that truncated segment. -/
theorem c3_transcript_segment (docOf : Str → Str) (links : List Str) :
    ((allTranscriptsText docOf links).take transcriptCap).length ≤ transcriptCap
    ∧ (∃ post, allTranscriptsText docOf links
        = (allTranscriptsText docOf links).take transcriptCap ++ post)
    ∧ allTranscriptsText docOf links = allTranscriptsText docOf (links.take 3)
    ∧ (∀ i link, (links.take 3)[i]? = some link →
        ∃ pre post, allTranscriptsText docOf links
          = pre ++ transcriptSep (1 + i) ++ docOf link ++ post)
    ∧ (∀ ticker mainRatios ratios, ∃ pre post,
        audit_prompt ticker mainRatios ratios (allTranscriptsText docOf links)
          = pre ++ (allTranscriptsText docOf links).take transcriptCap ++ post) := by
  refine ⟨?_, ?_, ?_, ?_, ?_⟩
  · simp [List.length_take]
  · exact ⟨(allTranscriptsText docOf links).drop transcriptCap,
      (List.take_append_drop _ _).symm⟩
  · cases links with
    | nil => rfl
    | cons hd tl => simp [allTranscriptsText, List.take_take]
  · intro i link h
    have hne : links ≠ [] := by
      intro he
      subst he
      simp at h
    obtain ⟨pre, post, hp⟩ := transcriptsLoop_decomp docOf (links.take 3) 1 i link h
    exact ⟨pre, post, by simp [allTranscriptsText, hne, hp]⟩
  · intro ticker mainRatios ratios
    exact ⟨promptSeg0 ++ ticker ++ promptSeg1 ++ pyReprStrDict mainRatios ++ promptSeg2 ++
      pyReprJVal ratios ++ promptSeg3, promptSeg4 ++ ticker ++ promptSeg5,
      by simp [audit_prompt]⟩

/-- Witness for C3: one link whose document text is `T`; the concatenation
positions the labelled separator and the document text as claimed. -/
theorem c3_transcript_segment_witness :
    ∃ pre post, allTranscriptsText (fun _ => ("T".toList)) [("u".toList)]
      = pre ++ transcriptSep 1 ++ ("T".toList) ++ post :=
  (c3_transcript_segment (fun _ => ("T".toList)) [("u".toList)]).2.2.2.1 0 ("u".toList)
    (by rfl)

/-- Decomposition of the page loop: a page with non-empty extracted text at
(0-based) position `i` contributes its 1-based page marker followed by its
text, at a definite position in the accumulated string. -/
theorem pagesLoop_decomp :
    ∀ (pages : List Str) (j i : Nat) (p : Str), pages[i]? = some p → p ≠ [] →
      ∃ pre post, pagesLoop j pages = pre ++ pageSep (j + i) ++ p ++ post := by
  intro pages
  induction pages with
  | nil =>
    intro j i p h
    simp at h
  | cons hd tl ih =>
    intro j i p h hne
    cases i with
    | zero =>
      simp at h
      subst h
      exact ⟨[], pagesLoop (j + 1) tl, by simp [pagesLoop, hne]⟩
    | succ i' =>
      simp at h
      obtain ⟨pre, post, hp⟩ := ih (j + 1) i' p h hne
      refine ⟨(if hd ≠ [] then pageSep j ++ hd else []) ++ pre, post, ?_⟩
      have hji : j + 1 + i' = j + (i' + 1) := by omega
      rw [hji] at hp
      simp [pagesLoop, hp]

/-- Claim C4: the Document Text Extractor reads at most the first 10 pages
(pages beyond the tenth never influence the result), labels each extracted
page's text with its 1-based page-number marker, and returns the
`[Scanned PDF/No Text]` sentinel — not an exception — when the accumulated
text is empty or whitespace-only. -/
theorem c4_page_extraction (pages : List Str) :
    read_transcript_pages pages = read_transcript_pages (pages.take 10)
    ∧ (∀ i p, (pages.take 10)[i]? = some p → p ≠ [] →
        ∃ pre post, pagesText pages = pre ++ pageSep (1 + i) ++ p ++ post)
    ∧ (pyStrip (pagesText pages) = [] → read_transcript_pages pages = scannedSentinel) := by
  refine ⟨?_, ?_, ?_⟩
  · simp [read_transcript_pages, pagesText, List.take_take]
  · intro i p h hne
    obtain ⟨pre, post, hp⟩ := pagesLoop_decomp (pages.take 10) 1 i p h hne
    exact ⟨pre, post, by simp [pagesText, hp]⟩
  · intro h
    simp [read_transcript_pages, h]

/-- Witness for C4: a 15-page document of non-empty pages has page 1 labelled
with its marker, and a 15-page document with no extractable text yields the
sentinel. -/
theorem c4_page_extraction_witness :
    (∃ pre post, pagesText (List.replicate 15 ("x".toList))
        = pre ++ pageSep 1 ++ ("x".toList) ++ post)
    ∧ read_transcript_pages (List.replicate 15 []) = scannedSentinel :=
  ⟨(c4_page_extraction (List.replicate 15 ("x".toList))).2.1 0 ("x".toList) (by rfl)
      (by decide),
   (c4_page_extraction (List.replicate 15 [])).2.2 (by decide)⟩

/-- Claim C2, counterexample: the sleeps are NOT bounded below by 10 seconds.
With every attempt failing and a jitter draw of 1/2 on each wait, tenacity's
`wait_random_exponential(min=10, max=60)` sleeps 5 seconds (half the 10-second
window) between attempts. -/
theorem c2_wait_below_ten_counterexample :
    generate_analysis (fun _ => (Except.error ("boom".toList) : Except Str Str))
      (fun _ => (1 : ℚ) / 2)
      = (Except.error ("boom".toList), [5, 5])
    ∧ ¬ (10 ≤ (5 : ℚ)) := by
  constructor
  · simp [generate_analysis, retryAux, waitRandExp, waitWindow]
    norm_num
  · norm_num

/-- Claim C2, amended: the generation call is attempted at most 3 times in
total (outcomes of attempts beyond the third are irrelevant); if all three
attempts raise, the third attempt's exception is the final result (no report);
each sleep is a uniformly random fraction `u ∈ [0,1]` of an exponential window
`max(10, min(2^attempt, 60))`, hence lies between 0 and 60 seconds — the
window (not the sleep itself) lies between 10 and 60 seconds. -/
theorem c2_retry_policy (call : Nat → Except Str Str) (u : Nat → ℚ)
    (hu : ∀ n, 0 ≤ u n ∧ u n ≤ 1) :
    (∀ e1 e2 e3, call 1 = Except.error e1 → call 2 = Except.error e2 →
      call 3 = Except.error e3 →
      generate_analysis call u
        = (Except.error e3, [waitRandExp (u 1) 1, waitRandExp (u 2) 2]))
    ∧ (∀ w ∈ (generate_analysis call u).2, 0 ≤ w ∧ w ≤ 60)
    ∧ (∀ n, 10 ≤ waitWindow n ∧ waitWindow n ≤ 60)
    ∧ (∀ call' : Nat → Except Str Str, (∀ n, n ≤ 3 → call' n = call n) →
        generate_analysis call' u = generate_analysis call u) := by
  have hwin : ∀ n, (10 : ℚ) ≤ waitWindow n ∧ waitWindow n ≤ 60 := by
    intro n
    constructor
    · exact le_max_left _ _
    · exact max_le (by norm_num) (min_le_right _ _)
  have hbound : ∀ n, 0 ≤ waitRandExp (u n) n ∧ waitRandExp (u n) n ≤ 60 := by
    intro n
    have hw0 : (0 : ℚ) ≤ waitWindow n := le_trans (by norm_num) (hwin n).1
    constructor
    · exact mul_nonneg (hu n).1 hw0
    · calc u n * waitWindow n ≤ 1 * waitWindow n :=
            mul_le_mul_of_nonneg_right (hu n).2 hw0
        _ = waitWindow n := one_mul _
        _ ≤ 60 := (hwin n).2
  refine ⟨?_, ?_, hwin, ?_⟩
  · intro e1 e2 e3 h1 h2 h3
    simp [generate_analysis, retryAux, h1, h2, h3]
  · intro w hw
    revert hw
    cases h1 : call 1 with
    | ok r => simp [generate_analysis, retryAux, h1]
    | error e1 =>
      cases h2 : call 2 with
      | ok r =>
        simp [generate_analysis, retryAux, h1, h2]
        intro hw
        subst hw
        exact hbound 1
      | error e2 =>
        simp [generate_analysis, retryAux, h1, h2]
        intro hw
        rcases hw with hw | hw <;> subst hw
        · exact hbound 1
        · exact hbound 2
  · intro call' hc
    have h1 := hc 1 (by norm_num)
    have h2 := hc 2 (by norm_num)
    have h3 := hc 3 (by norm_num)
    simp [generate_analysis, retryAux, h1, h2, h3]

/-- Witness for C2 (amended): with every attempt failing and jitter 1 on each
wait, the call fails after exactly 3 attempts with sleeps of 10 seconds. -/
theorem c2_retry_policy_witness :
    generate_analysis (fun _ => (Except.error ("boom".toList) : Except Str Str))
      (fun _ => (1 : ℚ))
      = (Except.error ("boom".toList), [10, 10]) := by
  have h := (c2_retry_policy (fun _ => Except.error ("boom".toList)) (fun _ => 1)
    (fun _ => by norm_num)).1 ("boom".toList) ("boom".toList) ("boom".toList) rfl rfl rfl
  rw [h]
  simp [waitRandExp, waitWindow]
  norm_num

/-- A page with no concall entries and no `top-ratios` list (the shape a
lenient parse of empty or badly malformed markup produces). -/
def strayPage : Node :=
  Node.elem ("[document]".toList) [] []
    [Node.elem ("div".toList) ["flex".toList] [] [Node.text ("hello".toList)]]

/-- Claim C6: when the parsed tree contains no concall list item, the
Transcript Link Extractor returns the empty sequence; when it contains no
`top-ratios` container (or the fetch raised, or the status was not 200), the
HTML Ratio Extractor returns the empty RatioSet; in particular both are empty
on the parse of empty markup.  Neither operation can raise: both are total
functions into plain values. -/
theorem c6_absent_structure_empty_results (soup : Node) (e : Str) (status : Nat) :
    ((∀ n ∈ descendants soup, isConcallLi n = false) → extract_transcript_links soup = [])
    ∧ ((∀ n ∈ descendants soup, isTopRatiosUl n = false) →
        get_company_ratios (Except.ok (status, soup)) = [])
    ∧ get_company_ratios (Except.error e) = []
    ∧ extract_transcript_links emptySoup = []
    ∧ get_company_ratios (Except.ok (status, emptySoup)) = [] := by
  have hfilter : ∀ (p : Node → Bool), (∀ n ∈ descendants soup, p n = false) →
      findAll p soup = [] := by
    intro p hp
    simp only [findAll, List.filter_eq_nil_iff]
    intro a ha
    simp [hp a ha]
  refine ⟨?_, ?_, rfl, by decide, ?_⟩
  · intro h
    simp [extract_transcript_links, hfilter _ h]
  · intro h
    by_cases hs : status = 200
    · subst hs
      simp [get_company_ratios, ratiosFrom, findFirst, hfilter _ h]
    · simp [get_company_ratios, hs]
  · by_cases hs : status = 200
    · subst hs
      decide
    · simp [get_company_ratios, hs]

/-- Witness for C6: on a page with a `div` but no concall entry and no
`top-ratios` list, both extractors return empty results. -/
theorem c6_absent_structure_empty_results_witness :
    extract_transcript_links strayPage = []
    ∧ get_company_ratios (Except.ok (200, strayPage)) = [] :=
  ⟨(c6_absent_structure_empty_results strayPage ("e".toList) 200).1 (by decide),
   (c6_absent_structure_empty_results strayPage ("e".toList) 200).2.1 (by decide)⟩

/-- A page with exactly one concall entry whose transcript anchor carries the
relative href `/company/X/concalls/123/`. -/
def concallPage : Node :=
  Node.elem ("[document]".toList) [] []
    [Node.elem ("ul".toList) [] []
      [Node.elem ("li".toList) ["flex-wrap-420".toList] []
        [Node.elem ("a".toList) ["concall-link".toList]
          [("href".toList, "/company/X/concalls/123/".toList)]
          [Node.text ("Transcript".toList)]]]]

/-- Claim C7: on the one-entry page the extractor returns exactly the one
absolute URL `https://www.screener.in/company/X/concalls/123/`; in general
every returned link is some collected href made absolute by prefixing the
site origin unless it already starts with `http`. -/
theorem c7_relative_href_absolutized :
    extract_transcript_links concallPage
      = [("https://www.screener.in/company/X/concalls/123/".toList)]
    ∧ (∀ (soup : Node) (l : Str), l ∈ extract_transcript_links soup →
        ∃ href, l = absolutizeLink href
          ∧ (("http".toList).isPrefixOf href → l = href)
          ∧ (¬ ("http".toList).isPrefixOf href → l = screenerBase ++ href)) := by
  constructor
  · decide
  · intro soup l hl
    rcases List.mem_filterMap.1 hl with ⟨li, _, hf⟩
    cases hA : findFirst isTranscriptAnchor li with
    | none => rw [transcriptLinkOf, hA] at hf; simp at hf
    | some a =>
      rw [transcriptLinkOf, hA] at hf
      simp only [Option.map_eq_some'] at hf
      rcases hf with ⟨link, _, hl'⟩
      subst hl'
      refine ⟨link, rfl, ?_, ?_⟩
      · intro h
        rw [absolutizeLink, if_pos h]
      · intro h
        rw [absolutizeLink, if_neg h]

/-- Witness for C7: the link returned for the one-entry page is the absolutized
form of some collected href. -/
theorem c7_relative_href_absolutized_witness :
    ∃ href, ("https://www.screener.in/company/X/concalls/123/".toList) = absolutizeLink href
      ∧ (("http".toList).isPrefixOf href
          → ("https://www.screener.in/company/X/concalls/123/".toList) = href)
      ∧ (¬ ("http".toList).isPrefixOf href
          → ("https://www.screener.in/company/X/concalls/123/".toList)
              = screenerBase ++ href) :=
  c7_relative_href_absolutized.2 concallPage
    ("https://www.screener.in/company/X/concalls/123/".toList) (by decide)

/-- Membership in a Python-style dict assignment: the pair is either the
assigned one or was already present. -/
theorem mem_dictSet (d : List (Str × Str)) (k v k' v' : Str)
    (h : (k', v') ∈ dictSet d k v) : (k' = k ∧ v' = v) ∨ (k', v') ∈ d := by
  unfold dictSet at h
  split at h
  · rcases List.mem_map.1 h with ⟨p, hp, he⟩
    by_cases hk : p.1 = k
    · rw [if_pos hk] at he
      simp only [Prod.mk.injEq] at he
      exact Or.inl ⟨he.1.symm.trans hk, he.2.symm⟩
    · rw [if_neg hk] at he
      exact Or.inr (he ▸ hp)
  · rcases List.mem_append.1 h with h | h
    · exact Or.inr h
    · simp only [List.mem_singleton, Prod.mk.injEq] at h
      exact Or.inl h

/-- Membership in the ratio fold: every recorded pair comes from some list
item with a name span and a value span, the key being the stripped name text
and the value the normalized value text. -/
theorem mem_ratiosFold (lis : List Node) :
    ∀ (d : List (Str × Str)) (k v : Str), (k, v) ∈ lis.foldl ratiosStep d →
      (k, v) ∈ d ∨ ∃ li ∈ lis, ∃ nameTag valueTag,
        findFirst isNameSpan li = some nameTag ∧ findFirst isValueSpan li = some valueTag
        ∧ k = getTextStrip nameTag ∧ v = normalizeValue valueTag := by
  induction lis with
  | nil =>
    intro d k v h
    exact Or.inl (by simpa using h)
  | cons hd tl ih =>
    intro d k v h
    rw [List.foldl_cons] at h
    rcases ih _ k v h with hmem | ⟨li, hli, nameTag, valueTag, h1, h2, h3, h4⟩
    · unfold ratiosStep at hmem
      rcases hN : findFirst isNameSpan hd with _ | nameTag
      · rw [hN] at hmem
        exact Or.inl hmem
      · rw [hN] at hmem
        rcases hV : findFirst isValueSpan hd with _ | valueTag
        · rw [hV] at hmem
          exact Or.inl hmem
        · rw [hV] at hmem
          rcases mem_dictSet d (getTextStrip nameTag) (normalizeValue valueTag) k v hmem
            with ⟨hk, hv⟩ | hd'
          · exact Or.inr ⟨hd, List.mem_cons_self _ _, nameTag, valueTag, hN, hV, hk, hv⟩
          · exact Or.inl hd'
    · exact Or.inr ⟨li, List.mem_cons_of_mem _ hli, nameTag, valueTag, h1, h2, h3, h4⟩

/-- The sample ratio page from the spec: entries P/E and ROE whose raw value
text carries surrounding/embedded newlines and double spaces. -/
def ratioPage : Node :=
  Node.elem ("[document]".toList) [] []
    [Node.elem ("ul".toList) [] [("id".toList, "top-ratios".toList)]
      [Node.elem ("li".toList) ["flex".toList] []
        [Node.elem ("span".toList) ["name".toList] [] [Node.text (" P/E ".toList)],
         Node.elem ("span".toList) ["value".toList] [] [Node.text ("\n23.5 \n".toList)]],
       Node.elem ("li".toList) ["flex".toList] []
        [Node.elem ("span".toList) ["name".toList] [] [Node.text ("ROE".toList)],
         Node.elem ("span".toList) ["value".toList] [] [Node.text (" 18\n  % ".toList)]]]]

/-- Claim C8: on the sample page the HTML Ratio Extractor returns exactly
`{'P/E': '23.5', 'ROE': '18 %'}`; in general every recorded value is the
value span's text fragments stripped, joined with single spaces, newlines
removed and double spaces collapsed (`normalizeValue`), under the stripped
name text as key. -/
theorem c8_value_normalization :
    get_company_ratios (Except.ok (200, ratioPage))
      = [(("P/E".toList), ("23.5".toList)), (("ROE".toList), ("18 %".toList))]
    ∧ (∀ (fetch : Except Str (Nat × Node)) (k v : Str),
        (k, v) ∈ get_company_ratios fetch →
        ∃ li nameTag valueTag,
          findFirst isNameSpan li = some nameTag ∧ findFirst isValueSpan li = some valueTag
          ∧ k = getTextStrip nameTag ∧ v = normalizeValue valueTag) := by
  constructor
  · decide
  · intro fetch k v h
    match fetch with
    | Except.error e => simp [get_company_ratios] at h
    | Except.ok (status, soup) =>
      by_cases hs : status = 200
      · subst hs
        simp only [get_company_ratios, ne_eq, not_true_eq_false, if_false, ite_false,
          reduceIte] at h
        unfold ratiosFrom at h
        rcases hc : findFirst isTopRatiosUl soup with _ | container
        · rw [hc] at h
          simp at h
        · rw [hc] at h
          rcases mem_ratiosFold (findAll isFlexLi container) [] k v h with hin | hfound
          · simp at hin
          · rcases hfound with ⟨li, _, nameTag, valueTag, h1, h2, h3, h4⟩
            exact ⟨li, nameTag, valueTag, h1, h2, h3, h4⟩
      · simp [get_company_ratios, hs] at h

/-- Witness for C8: the P/E entry of the sample page is the normalized text of
its name and value spans. -/
theorem c8_value_normalization_witness :
    ∃ li nameTag valueTag,
      findFirst isNameSpan li = some nameTag ∧ findFirst isValueSpan li = some valueTag
      ∧ ("P/E".toList) = getTextStrip nameTag
      ∧ ("23.5".toList) = normalizeValue valueTag :=
  c8_value_normalization.2 (Except.ok (200, ratioPage)) ("P/E".toList) ("23.5".toList)
    (by decide)

end StockApp
